import Mathlib

/-
Verification of the text-detection inverted-index script (textDetection.js).

The script keeps two redis databases: database 0 (`tokenClient`, the token
namespace) and database 1 (`docsClient`, the docs / processed-tracker
namespace).  We embed the reachable store state as three finite-support maps:
the token database's set-valued keys (touched by SADD/SMEMBERS), the token
database's string-valued keys (touched by the SET issued from `add`), and the
docs database's string-valued keys (touched by `setContainsNoText` and read
by `documentIsProcessed`).

Two kinds of store access occur in the source.  `documentIsProcessed` and
`setContainsNoText` invoke their redis client directly; they are modelled
directly.  `add`, `lookup` and the per-file stage of `getTextFromFiles`
instead build arrays of plain callback-taking task closures and hand them to
`Promise.all`; `Promise.all` resolves non-thenable values as they are and
never invokes them, so none of these tasks ever runs.  The literal runtime
behavior is modelled by `Index.addRun`, `Index.lookupRun` and
`getTextFromFilesRun`: the store is unchanged and the call fulfills with
the array of un-invoked tasks, each task represented by the data it
captures.  Separately, `Index.add` models the writes the task list was
built to issue — the store effect the closures wrap; negative and frame
facts proved of it (a key those writes never touch, idempotence of the
posting sets) hold of the program a fortiori, since the program performs
none of these writes.  The external word tokenizer (`natural`'s
`WordTokenizer`) is kept abstract as a function parameter `tok`; a concrete
model `wordTokenize` mirroring its splitting rule is provided for concrete
evaluations.
-/

/-- State of the two redis databases used by the script: set-valued and
string-valued keys of database 0 (tokens), and string-valued keys of
database 1 (docs). An absent key is `∅` resp. `none`. -/
structure RedisState where
  tokenSets : String → Finset String
  tokenStrings : String → Option String
  docsStrings : String → Option String

/-- The empty store: no key present in either database. -/
def RedisState.init : RedisState :=
  ⟨fun _ => ∅, fun _ => none, fun _ => none⟩

/-- redis SADD on database 0: set-union insertion of `member` into the set at
`key` (`tokenClient.sadd(token, filename)`). -/
def RedisState.sadd (s : RedisState) (key member : String) : RedisState :=
  { s with tokenSets := fun k => if k = key then insert member (s.tokenSets k) else s.tokenSets k }

/-- redis SET on database 0 (`tokenClient.set(filename, document)`). -/
def RedisState.tokenSet (s : RedisState) (key value : String) : RedisState :=
  { s with tokenStrings := fun k => if k = key then some value else s.tokenStrings k }

/-- redis SET on database 1 (`docsClient.set(filename, value)`). -/
def RedisState.docsSet (s : RedisState) (key value : String) : RedisState :=
  { s with docsStrings := fun k => if k = key then some value else s.docsStrings k }

/-- JavaScript `Array.prototype.indexOf` on a list of strings: index of the
first occurrence, `-1` when absent. -/
def jsIndexOf : List String → String → Int
  | [], _ => -1
  | a :: rest, x =>
    if a = x then 0
    else if jsIndexOf rest x = -1 then -1 else jsIndexOf rest x + 1

/-- The `PUNCTUATION` array of `Index.prototype.add`. -/
def PUNCTUATION : List String := [".", ",", ":", ""]

/-- The token filter of `Index.prototype.add`:
`tokens.filter(token => PUNCTUATION.indexOf(token) === -1)`. -/
def survivingTokens (tokens : List String) : List String :=
  tokens.filter (fun token => jsIndexOf PUNCTUATION token == -1)

/-- The SADD tasks of `Index.prototype.add`: one
`tokenClient.sadd(token, filename)` per surviving token, folded over the
store. -/
def saddAll (filename : String) (tokens : List String) (s : RedisState) : RedisState :=
  tokens.foldl (fun st token => st.sadd token filename) s

/-- The store effect denoted by the task list of
`Index.prototype.add(filename, document)`: tokenize the document, filter
punctuation tokens, SADD the filename into each surviving token's set on the
token database, and SET the full document under `filename` — also on the
token database (`self.tokenClient.set(filename, document)`). `tok` stands for
`new natural.WordTokenizer().tokenize`. This applies the writes the task
closures wrap; the program as written never invokes them (see
`Index.addRun` for the literal semantics), so facts proved of `Index.add`
about writes it does not perform hold of the program a fortiori. -/
def Index.add (tok : String → List String) (s : RedisState) (filename document : String) :
    RedisState :=
  (saddAll filename (survivingTokens (tok document)) s).tokenSet filename document

/-- JavaScript `String.prototype.toLowerCase`: lowercase every character. -/
def jsToLowerCase (s : String) : String :=
  String.mk (s.data.map Char.toLower)

/-- JavaScript truthiness of the value handed to the GET callback in
`documentIsProcessed`: `null` (absent key) and the empty string are falsy. -/
def jsTruthyOpt : Option String → Bool
  | none => false
  | some v => v != ""

/-- `Index.prototype.documentIsProcessed(filename)`: GET on the docs
database; `if (value)` → true, `else if (value === '')` → true, else false. -/
def documentIsProcessed (s : RedisState) (filename : String) : Bool :=
  let value := s.docsStrings filename
  if jsTruthyOpt value then true
  else if value = some "" then true
  else false

/-- `Index.prototype.setContainsNoText(filename)`:
`docsClient.set(filename, '')`. -/
def Index.setContainsNoText (s : RedisState) (filename : String) : RedisState :=
  s.docsSet filename ""

/-- A single store write issued by `add`: an SADD of a member into a set key,
or a SET of a string key (both on the token database). -/
inductive StoreOp where
  | sadd (key member : String)
  | setStr (key value : String)
deriving DecidableEq

/-- The list of writes wrapped by the task closures
`Index.prototype.add(filename, document)` builds: the per-token SADD tasks
in token order, then the full-text SET task pushed last. -/
def addOps (tok : String → List String) (filename document : String) : List StoreOp :=
  (survivingTokens (tok document)).map (fun token => StoreOp.sadd token filename)
    ++ [StoreOp.setStr filename document]

/-- Literal execution of `Index.prototype.add(filename, document)`: the
task closures are built — one `tokenClient.sadd(token, filename)` per
surviving token, then `tokenClient.set(filename, document)` pushed last,
each represented here by the `StoreOp` it wraps — and handed to
`Promise.all`, which never invokes plain (non-thenable) function values.
No store operation is issued, the store is unchanged, and the call fulfills
with the array of un-invoked tasks. (In part_000, `add` is moreover an
arrow function, so its `self` is the module rather than the Index
instance.) -/
def Index.addRun (tok : String → List String) (s : RedisState) (filename document : String) :
    RedisState × Except StoreOp (List StoreOp) :=
  (s, Except.ok (addOps tok filename document))

/-- Literal execution of `Index.prototype.lookup(words)`: each task closure
lowercases its word and wraps an SMEMBERS query — represented here by the
captured query key — and `Promise.all` over these plain functions invokes
none of them: the store (the `_s` parameter, which the result provably does
not depend on) is never queried and the call fulfills with the array of
un-invoked tasks. -/
def Index.lookupRun (_s : RedisState) (words : List String) : List String :=
  words.map (fun word => jsToLowerCase word)

/-- Character class of the word tokenizer: alphanumeric or underscore. -/
def isWordChar (c : Char) : Bool :=
  c.isAlphanum || c = '_'

/-- Split a character list at non-word characters, accumulating the current
word reversed. -/
def splitWordsAux : List Char → List Char → List (List Char)
  | [], acc => [acc.reverse]
  | c :: cs, acc =>
    if isWordChar c then splitWordsAux cs (c :: acc)
    else acc.reverse :: splitWordsAux cs []

/-- Concrete model of the external `natural.WordTokenizer`: split the text on
non-alphanumeric characters and discard empty tokens. Used to instantiate
the abstract tokenizer parameter on concrete inputs. -/
def wordTokenize (text : String) : List String :=
  ((splitWordsAux text.toList []).map (fun cs => String.mk cs)).filter (fun t => t ≠ "")

/-- One entry of the `textAnnotations` array of an annotate response, with
its `description` field. -/
structure TextItem where
  description : Option String

/-- One per-image response of `batchAnnotateImages`: an optional `error` and
the `textAnnotations` array. -/
structure AnnotateResponse where
  error : Option String
  textAnnotations : List TextItem

/-- Literal execution of the per-file stage of `getTextFromFiles` once the
batch-annotate call has returned `detections` (the flow of the samples
version; part_000 throws even earlier, at `results[0].responses`, since
`results` is already the destructured response object). The loop over the
files does run: a response carrying an `error` is logged and its slot left
empty (the `return` inside the map), and every other file's slot receives
the task closure wrapping `extractDescriptions` — represented here by the
(filename, response) pair it captures. The closures are handed to
`Promise.all` un-invoked, so neither `index.add` nor
`index.setContainsNoText` is ever called and the store is unchanged. -/
def getTextFromFilesRun (s : RedisState) (inputFiles : List String)
    (detections : List AnnotateResponse) :
    RedisState × List (Option (String × AnnotateResponse)) :=
  (s, (inputFiles.zip detections).map (fun p =>
    if p.2.error.isSome then none
    else some (p.1, p.2)))

/-! Helper lemmas about `jsIndexOf` and the punctuation filter. -/

lemma jsIndexOf_nonneg_of_ne (l : List String) (x : String) (h : jsIndexOf l x ≠ -1) :
    0 ≤ jsIndexOf l x := by
  induction l with
  | nil => simp [jsIndexOf] at h
  | cons a rest ih =>
    by_cases hax : a = x
    · simp [jsIndexOf, hax]
    · by_cases hr : jsIndexOf rest x = -1
      · simp [jsIndexOf, hax, hr] at h
      · have h0 := ih hr
        simp only [jsIndexOf, if_neg hax, if_neg hr]
        omega

lemma jsIndexOf_eq_neg_one_iff (l : List String) (x : String) :
    jsIndexOf l x = -1 ↔ x ∉ l := by
  induction l with
  | nil => simp [jsIndexOf]
  | cons a rest ih =>
    by_cases hax : a = x
    · subst hax
      simp [jsIndexOf]
    · by_cases hr : jsIndexOf rest x = -1
      · have hx : x ∉ rest := ih.1 hr
        simp only [jsIndexOf, if_neg hax, if_pos hr, List.mem_cons]
        constructor
        · intro _ h
          rcases h with h | h
          · exact hax h.symm
          · exact hx h
        · intro _
          trivial
      · have hmem : x ∈ rest := by
          by_contra hx
          exact hr (ih.2 hx)
        have hnn := jsIndexOf_nonneg_of_ne rest x hr
        simp only [jsIndexOf, if_neg hax, if_neg hr, List.mem_cons]
        constructor
        · intro h
          omega
        · intro h
          exact absurd (Or.inr hmem) h

lemma mem_survivingTokens (tokens : List String) (t : String) :
    t ∈ survivingTokens tokens ↔ t ∈ tokens ∧ t ∉ PUNCTUATION := by
  simp only [survivingTokens, List.mem_filter, beq_iff_eq, jsIndexOf_eq_neg_one_iff,
    decide_eq_true_eq]

lemma survivingTokens_eq_filter (tokens : List String) :
    survivingTokens tokens = tokens.filter (fun t => decide (t ∉ PUNCTUATION)) := by
  refine List.filter_congr ?_
  intro t _
  by_cases h : t ∈ PUNCTUATION
  · have hne : jsIndexOf PUNCTUATION t ≠ -1 := fun he =>
      ((jsIndexOf_eq_neg_one_iff _ t).1 he) h
    simp [h, hne]
  · have he : jsIndexOf PUNCTUATION t = -1 := (jsIndexOf_eq_neg_one_iff _ t).2 h
    simp [h, he]

/-! Helper lemmas about the store operations. -/

lemma sadd_tokenStrings (s : RedisState) (k m : String) :
    (s.sadd k m).tokenStrings = s.tokenStrings := rfl

lemma sadd_docsStrings (s : RedisState) (k m : String) :
    (s.sadd k m).docsStrings = s.docsStrings := rfl

lemma tokenSet_tokenSets (s : RedisState) (k v : String) :
    (s.tokenSet k v).tokenSets = s.tokenSets := rfl

lemma tokenSet_docsStrings (s : RedisState) (k v : String) :
    (s.tokenSet k v).docsStrings = s.docsStrings := rfl

lemma docsSet_tokenSets (s : RedisState) (k v : String) :
    (s.docsSet k v).tokenSets = s.tokenSets := rfl

lemma docsSet_tokenStrings (s : RedisState) (k v : String) :
    (s.docsSet k v).tokenStrings = s.tokenStrings := rfl

lemma mem_sadd_of_mem {s : RedisState} {k m : String} (k2 m2 : String)
    (h : m ∈ s.tokenSets k) : m ∈ (s.sadd k2 m2).tokenSets k := by
  by_cases hk : k = k2
  · subst hk
    simp only [RedisState.sadd, if_pos rfl]
    exact Finset.mem_insert_of_mem h
  · simpa only [RedisState.sadd, if_neg hk] using h

lemma sadd_tokenSets_of_mem {s : RedisState} {k m : String} (h : m ∈ s.tokenSets k) :
    (s.sadd k m).tokenSets = s.tokenSets := by
  funext x
  by_cases hx : x = k
  · subst hx
    simp only [RedisState.sadd, if_pos rfl]
    exact Finset.insert_eq_self.2 h
  · simp only [RedisState.sadd, if_neg hx]

lemma saddAll_tokenStrings (f : String) :
    ∀ (l : List String) (s : RedisState), (saddAll f l s).tokenStrings = s.tokenStrings := by
  intro l
  induction l with
  | nil => intro s; rfl
  | cons a rest ih =>
    intro s
    show (saddAll f rest (s.sadd a f)).tokenStrings = s.tokenStrings
    rw [ih (s.sadd a f)]
    rfl

lemma saddAll_docsStrings (f : String) :
    ∀ (l : List String) (s : RedisState), (saddAll f l s).docsStrings = s.docsStrings := by
  intro l
  induction l with
  | nil => intro s; rfl
  | cons a rest ih =>
    intro s
    show (saddAll f rest (s.sadd a f)).docsStrings = s.docsStrings
    rw [ih (s.sadd a f)]
    rfl

lemma saddAll_mem_mono (f : String) :
    ∀ (l : List String) (s : RedisState) (k m : String),
      m ∈ s.tokenSets k → m ∈ (saddAll f l s).tokenSets k := by
  intro l
  induction l with
  | nil => intro s k m h; exact h
  | cons a rest ih =>
    intro s k m h
    show m ∈ (saddAll f rest (s.sadd a f)).tokenSets k
    exact ih (s.sadd a f) k m (mem_sadd_of_mem a f h)

lemma saddAll_mem (f : String) :
    ∀ (l : List String) (s : RedisState) (t : String),
      t ∈ l → f ∈ (saddAll f l s).tokenSets t := by
  intro l
  induction l with
  | nil => intro s t h; cases h
  | cons a rest ih =>
    intro s t h
    show f ∈ (saddAll f rest (s.sadd a f)).tokenSets t
    rcases List.mem_cons.1 h with h | h
    · subst h
      refine saddAll_mem_mono f rest (s.sadd t f) t f ?_
      simp only [RedisState.sadd, if_pos rfl]
      exact Finset.mem_insert_self f _
    · exact ih (s.sadd a f) t h

lemma saddAll_tokenSets_of_mem (f : String) :
    ∀ (l : List String) (s : RedisState),
      (∀ t ∈ l, f ∈ s.tokenSets t) → (saddAll f l s).tokenSets = s.tokenSets := by
  intro l
  induction l with
  | nil => intro s _; rfl
  | cons a rest ih =>
    intro s h
    have ha : f ∈ s.tokenSets a := h a (List.mem_cons_self a rest)
    have hsa : (s.sadd a f).tokenSets = s.tokenSets := sadd_tokenSets_of_mem ha
    have hrest : ∀ t ∈ rest, f ∈ (s.sadd a f).tokenSets t := by
      intro t ht
      rw [hsa]
      exact h t (List.mem_cons_of_mem a ht)
    show (saddAll f rest (s.sadd a f)).tokenSets = s.tokenSets
    rw [ih (s.sadd a f) hrest, hsa]

/-! Helper lemmas about `Index.add`. -/

lemma add_tokenSets (tok : String → List String) (s : RedisState) (f d : String) :
    (Index.add tok s f d).tokenSets = (saddAll f (survivingTokens (tok d)) s).tokenSets := rfl

lemma add_docsStrings (tok : String → List String) (s : RedisState) (f d : String) :
    (Index.add tok s f d).docsStrings = s.docsStrings :=
  saddAll_docsStrings f (survivingTokens (tok d)) s

lemma add_mem_tokenSets (tok : String → List String) (s : RedisState) (f d t : String)
    (ht : t ∈ survivingTokens (tok d)) : f ∈ (Index.add tok s f d).tokenSets t := by
  rw [add_tokenSets]
  exact saddAll_mem f _ s t ht

/-- Claim C1 (refuted by the code): after a successful `add(D, T)` with
non-empty text, `documentIsProcessed(D)` still reports `false`. The key
`add` writes for `D` goes to the token database
(`tokenClient.set(filename, document)`), while `documentIsProcessed` reads
the docs database (`docsClient.GET`), which `add` never touches: the write
is not visible to the read. -/
theorem add_then_documentIsProcessed_false :
    documentIsProcessed (Index.add wordTokenize RedisState.init "a.png" "hello") "a.png"
      = false ∧
    (Index.add wordTokenize RedisState.init "a.png" "hello").tokenStrings "a.png"
      = some "hello" ∧
    (Index.add wordTokenize RedisState.init "a.png" "hello").docsStrings "a.png" = none := by
  refine ⟨?_, ?_, ?_⟩ <;> rfl

/-- Claim C2: every write issued by `add` — the per-token SADDs and the
full-text SET under the document id — targets the token database; `add`
leaves the docs database untouched, and `setContainsNoText`, the only writer
of the docs database, leaves the token database untouched. -/
theorem add_writes_only_token_namespace (tok : String → List String) (s : RedisState)
    (f d g : String) :
    (Index.add tok s f d).docsStrings = s.docsStrings ∧
    (Index.setContainsNoText s g).tokenSets = s.tokenSets ∧
    (Index.setContainsNoText s g).tokenStrings = s.tokenStrings :=
  ⟨add_docsStrings tok s f d, rfl, rfl⟩

/-- Claim C6: `setContainsNoText(D)` stores the empty-string sentinel under
`D` on the docs database and writes no token postings (the token database is
unchanged), and `documentIsProcessed(D)` afterwards reports the document as
processed. -/
theorem setContainsNoText_then_processed (s : RedisState) (f : String) :
    (Index.setContainsNoText s f).docsStrings f = some "" ∧
    (Index.setContainsNoText s f).tokenSets = s.tokenSets ∧
    (Index.setContainsNoText s f).tokenStrings = s.tokenStrings ∧
    documentIsProcessed (Index.setContainsNoText s f) f = true := by
  have hd : (Index.setContainsNoText s f).docsStrings f = some "" := by
    simp [Index.setContainsNoText, RedisState.docsSet]
  refine ⟨hd, rfl, rfl, ?_⟩
  unfold documentIsProcessed
  rw [hd]
  rfl

/-- Claim C7: the tokens `add` indexes are exactly the tokenizer's output
with every token equal to `"."`, `","`, `":"`, or `""` removed and no other
token removed: the `indexOf`-based filter of the code equals the
set-difference filter, and membership in the surviving tokens is membership
in the tokenizer output minus exactly those four tokens. -/
theorem add_filters_exactly_punctuation (tokens : List String) :
    survivingTokens tokens
        = tokens.filter (fun t => decide (¬(t = "." ∨ t = "," ∨ t = ":" ∨ t = ""))) ∧
    ∀ t, t ∈ survivingTokens tokens
        ↔ t ∈ tokens ∧ ¬(t = "." ∨ t = "," ∨ t = ":" ∨ t = "") := by
  constructor
  · rw [survivingTokens_eq_filter]
    refine List.filter_congr ?_
    intro t _
    simp [PUNCTUATION]
  · intro t
    rw [mem_survivingTokens]
    simp [PUNCTUATION]

/-- Claim C8: `add(D, T)` is idempotent on the posting sets: calling it
twice in succession leaves every token's posting set identical to calling it
once (SADD has set-union semantics). -/
theorem add_idempotent_tokenSets (tok : String → List String) (s : RedisState) (f d : String) :
    (Index.add tok (Index.add tok s f d) f d).tokenSets = (Index.add tok s f d).tokenSets := by
  have hmem : ∀ t ∈ survivingTokens (tok d), f ∈ (Index.add tok s f d).tokenSets t :=
    fun t ht => add_mem_tokenSets tok s f d t ht
  calc (Index.add tok (Index.add tok s f d) f d).tokenSets
      = (saddAll f (survivingTokens (tok d)) (Index.add tok s f d)).tokenSets :=
        add_tokenSets tok (Index.add tok s f d) f d
    _ = (Index.add tok s f d).tokenSets :=
        saddAll_tokenSets_of_mem f (survivingTokens (tok d)) (Index.add tok s f d) hmem

/-- Claim C10: `documentIsProcessed` collapses the two processed states:
it reports `true` exactly when a docs entry is present (whether the
empty-string sentinel or non-empty text) and `false` exactly when the key is
absent, so its boolean result cannot distinguish the two processed states. -/
theorem documentIsProcessed_iff_present (s : RedisState) (f : String) :
    documentIsProcessed s f = (s.docsStrings f).isSome := by
  cases h : s.docsStrings f with
  | none => simp [documentIsProcessed, h, jsTruthyOpt]
  | some v =>
    by_cases hv : v = ""
    · simp [documentIsProcessed, h, jsTruthyOpt, hv]
    · simp [documentIsProcessed, h, jsTruthyOpt, hv]

/-- Claim C3 (refuted by the code): `Promise.all` is applied to the array of
plain callback-taking task functions, which are never invoked. `add`
therefore issues none of its writes — the store is unchanged — and always
fulfills, resolving with the array of un-invoked tasks, so no store error
can ever identify a failing operation; yet the task list it built (one SADD
per surviving token plus the full-text SET) is never empty. -/
theorem add_never_fails_and_writes_nothing (tok : String → List String) (s : RedisState)
    (f d : String) :
    (Index.addRun tok s f d).1 = s ∧
    (Index.addRun tok s f d).2 = Except.ok (addOps tok f d) ∧
    addOps tok f d ≠ [] := by
  refine ⟨rfl, rfl, ?_⟩
  simp [addOps]

/-- Claim C4 (refuted by the code): `add`'s task closures are never invoked,
so nothing is ever indexed. Concretely, `"hello"` is a surviving token of
the text `"hello"`, yet after `add("a.png", "hello")` the posting set of
`"hello"` is still empty — the store is unchanged for every input — so no
lookup can include the document. -/
theorem add_indexes_nothing (tok : String → List String) (s : RedisState) (f d : String) :
    (Index.addRun tok s f d).1 = s ∧
    "hello" ∈ wordTokenize "hello" ∧ "hello" ∉ PUNCTUATION ∧
    (Index.addRun wordTokenize RedisState.init "a.png" "hello").1.tokenSets "hello" = ∅ := by
  exact ⟨rfl, by decide, by decide, rfl⟩

/-- Claim C5 (refuted by the code): `lookup`'s `Promise.all` resolves with
the array of un-invoked query closures: the store is never read, so the
result is independent of the store contents and cannot be the per-word
posting sets; only the shape of the claim survives (one slot per input
word, in input order). -/
theorem lookup_never_queries_store (s s2 : RedisState) (words : List String) :
    Index.lookupRun s words = Index.lookupRun s2 words ∧
    (Index.lookupRun s words).length = words.length :=
  ⟨rfl, List.length_map words _⟩

/-- Claim C9 (refuted by the code): the per-file loop does run — an
error-carrying response is logged and its slot left empty while the other
files keep their slots — but the task closures wrapping
`extractDescriptions` are never invoked, so neither `add` nor
`setContainsNoText` is ever called for any file: the store is unchanged,
and after a batch whose second file carries one text annotation that file
is still not marked processed. -/
theorem getTextFromFiles_dispatches_nothing (s : RedisState) (files : List String)
    (dets : List AnnotateResponse) :
    (getTextFromFilesRun s files dets).1 = s ∧
    (getTextFromFilesRun RedisState.init ["a.png", "b.png"]
        [⟨some "boom", []⟩, ⟨none, [⟨some "hi"⟩]⟩]).2
      = [none, some ("b.png", ⟨none, [⟨some "hi"⟩]⟩)] ∧
    documentIsProcessed
        (getTextFromFilesRun RedisState.init ["a.png", "b.png"]
          [⟨some "boom", []⟩, ⟨none, [⟨some "hi"⟩]⟩]).1 "b.png" = false := by
  exact ⟨rfl, rfl, rfl⟩
